import Mathlib

/-
  Verification development for the ClawServant agent runtime.

  Shallow embedding of the core of the repository:
    - providers.py : ProviderManager.call (provider fallback coordinator)
    - clawservant.py : ClawServant._extract_tool_calls (tool-call parser),
      ClawServant.think (orchestration loop),
      ClawServant.parse_task_frontmatter and
      ClawServant.process_task_with_loop (task iteration controller),
      Memory.load / Memory.add (append-only memory log).

  Conventions of the embedding:
    - Python strings are modelled as Lean String or List Char.
    - Python exceptions are modelled with Except String; a value of the form
      Except.error msg stands for a raised exception carrying msg.
    - External collaborators (the LLM backends, the tool execution gateway,
      and the Python standard library json codec) are taken as explicit
      function parameters; the model replies are indexed by call number,
      which models the LLM as a nondeterministic oracle.
    - Wall-clock timestamps and generated task identifiers are injected as
      parameters, since the embedding is pure.
-/

/- ## Generic helpers mirroring Python primitives -/

/-- Python str whitespace test, restricted to the ASCII whitespace characters
that the inputs of this development use. -/
def isPySpace (c : Char) : Bool :=
  c = ' ' || c = '\t' || c = '\n' || c = '\r' || c = '\x0b' || c = '\x0c'

/-- Python str.strip on a character list: drop whitespace from both ends. -/
def stripChars (s : List Char) : List Char :=
  ((s.dropWhile isPySpace).reverse.dropWhile isPySpace).reverse

/-- Test whether the first list occurs at the start of the second list. -/
def leadsWith : List Char → List Char → Bool
  | [], _ => true
  | _ :: _, [] => false
  | p :: ps, c :: cs => p == c && leadsWith ps cs

/-- Python substring membership, needle in hay, on character lists. -/
def containsSub (needle : List Char) : List Char → Bool
  | [] => needle.isEmpty
  | c :: rest => leadsWith needle (c :: rest) || containsSub needle rest

/- ## Provider fallback coordinator, from providers.py -/

/-- The exact message of the RuntimeError raised by ProviderManager.call
when every provider has been tried without success (providers.py lines
266 to 271). -/
def noProviderMsg : String :=
  "No LLM providers available.\nEdit credentials.json with your API keys.\n\nRun: python3 setup.py\n\nAll credentials must be stored in credentials.json (folder is self-contained)"

/-- Behaviour of one provider name under the manager: none models a name
absent from self.providers (its availability check failed at startup, so it
is skipped), some (Except.error e) models an available provider whose call
raises, and some (Except.ok r) models a successful call returning text r. -/
def isFailOrSkip (o : Option (Except String String)) : Bool :=
  match o with
  | none => true
  | some (Except.error _) => true
  | some (Except.ok _) => false

/-- True exactly when the provider is available but its call raises, which
is the case where ProviderManager.call attempts it and moves on. -/
def isFailingAttempt (o : Option (Except String String)) : Bool :=
  match o with
  | some (Except.error _) => true
  | _ => false

/-- ProviderManager.call from providers.py lines 246 to 271. The first
component is the returned pair (response text, provider name), or the
RuntimeError raised after exhausting the fallback order; the second
component records, in order, the providers on which a call was actually
attempted (names absent from the available set are skipped without an
attempt). The mutation of self.active_provider does not affect the returned
value and is not modelled. -/
def ProviderManager.call (behave : String → Option (Except String String)) :
    List String → Except String (String × String) × List String
  | [] => (Except.error noProviderMsg, [])
  | provider_name :: rest =>
    match behave provider_name with
    | none => ProviderManager.call behave rest
    | some (Except.error _) =>
      let r := ProviderManager.call behave rest
      (r.1, provider_name :: r.2)
    | some (Except.ok resp) => (Except.ok (resp, provider_name), [provider_name])

/-- C1: if provider name is the first entry of the fallback order that is
available and whose call succeeds, ProviderManager.call returns its
response paired with its name, no matter how many earlier entries are
unavailable or failing; the attempt trace is exactly the failing earlier
providers followed by name, so no later provider is attempted. -/
theorem providerCall_first_success (behave : String → Option (Except String String))
    (pre post : List String) (name resp : String)
    (hpre : ∀ p ∈ pre, isFailOrSkip (behave p) = true)
    (hname : behave name = some (Except.ok resp)) :
    ProviderManager.call behave (pre ++ name :: post) =
      (Except.ok (resp, name),
       pre.filter (fun p => isFailingAttempt (behave p)) ++ [name]) := by
  induction pre with
  | nil =>
    simp [ProviderManager.call, hname]
  | cons p ps ih =>
    have hp : isFailOrSkip (behave p) = true := hpre p (List.mem_cons_self p ps)
    have hps : ∀ q ∈ ps, isFailOrSkip (behave q) = true :=
      fun q hq => hpre q (List.mem_cons_of_mem p hq)
    cases ho : behave p with
    | none =>
      simp only [List.cons_append, ProviderManager.call, ho, List.filter_cons, List.append_eq]
      rw [ih hps]
      simp [isFailingAttempt]
    | some x =>
      cases x with
      | error e =>
        simp only [List.cons_append, ProviderManager.call, ho, List.filter_cons, List.append_eq]
        rw [ih hps]
        simp [isFailingAttempt]
      | ok r =>
        rw [ho] at hp
        simp [isFailOrSkip] at hp

/-- Witness for C1: bedrock is unavailable, anthropic is available but
raises, openai succeeds, ollama comes later; the call returns the openai
response with its name, and only anthropic and openai were attempted. -/
def behaveW1 : String → Option (Except String String) := fun s =>
  if s = "bedrock" then none
  else if s = "anthropic" then some (Except.error "auth error")
  else if s = "openai" then some (Except.ok "hello from openai")
  else none

theorem providerCall_first_success_witness :
    ProviderManager.call behaveW1 ["bedrock", "anthropic", "openai", "ollama"] =
      (Except.ok ("hello from openai", "openai"), ["anthropic", "openai"]) := by
  have h := providerCall_first_success behaveW1 ["bedrock", "anthropic"] ["ollama"]
    "openai" "hello from openai" (by decide) (by rfl)
  simpa using h

/-- C5: if every name in the fallback order is either unavailable or raises
on call, ProviderManager.call raises the provider-exhaustion RuntimeError,
whose message carries guidance to supply credentials; no response value is
produced. -/
theorem providerCall_exhaustion (behave : String → Option (Except String String))
    (order : List String)
    (hall : ∀ p ∈ order, isFailOrSkip (behave p) = true) :
    (ProviderManager.call behave order).1 = Except.error noProviderMsg ∧
      containsSub "credentials".toList noProviderMsg.toList = true := by
  refine ⟨?_, by decide⟩
  induction order with
  | nil => rfl
  | cons p ps ih =>
    have hp : isFailOrSkip (behave p) = true := hall p (List.mem_cons_self p ps)
    have hps : ∀ q ∈ ps, isFailOrSkip (behave q) = true :=
      fun q hq => hall q (List.mem_cons_of_mem p hq)
    cases ho : behave p with
    | none =>
      simp only [ProviderManager.call, ho]
      exact ih hps
    | some x =>
      cases x with
      | error e =>
        simp only [ProviderManager.call, ho]
        exact ih hps
      | ok r =>
        rw [ho] at hp
        simp [isFailOrSkip] at hp

/-- Witness for C5: only ollama is available and it always raises; the call
ends in the provider-exhaustion error. -/
def behaveW5 : String → Option (Except String String) := fun s =>
  if s = "ollama" then some (Except.error "connection refused") else none

theorem providerCall_exhaustion_witness :
    (ProviderManager.call behaveW5 ["bedrock", "anthropic", "openai", "ollama"]).1 =
        Except.error noProviderMsg ∧
      containsSub "credentials".toList noProviderMsg.toList = true :=
  providerCall_exhaustion behaveW5 ["bedrock", "anthropic", "openai", "ollama"] (by decide)

/- ## Python JSON values and the tool-call parser, from clawservant.py -/

/-- A Python value produced by json.loads. Numeric values are modelled as
integers; non-integral numbers are not needed by any claim. -/
inductive PyJson where
  | jnull : PyJson
  | jbool : Bool → PyJson
  | jnum : Int → PyJson
  | jstr : String → PyJson
  | jarr : List PyJson → PyJson
  | jobj : List (String × PyJson) → PyJson

/-- Message of the Python TypeError raised by the membership test key in x
when x is not a container (int, float, bool, None). -/
def typeErrMsg : String := "TypeError: argument of type is not iterable"

/-- Python equality of a json value against a string, used by list
membership: only an equal string compares equal. -/
def jIsStr (j : PyJson) (k : String) : Bool :=
  match j with
  | PyJson.jstr s => s == k
  | _ => false

/-- The Python membership test key in value on a json.loads result: key
lookup on dicts, element equality on lists, substring test on strings, and
an uncaught TypeError on any non-container value. -/
def pyContains (j : PyJson) (k : String) : Except String Bool :=
  match j with
  | PyJson.jobj fields => Except.ok (fields.any (fun f => f.1 == k))
  | PyJson.jarr xs => Except.ok (xs.any (fun x => jIsStr x k))
  | PyJson.jstr s => Except.ok (containsSub k.toList s.toList)
  | _ => Except.error typeErrMsg

/-- Python subscription value[key] with a string key: dict lookup, and a
TypeError on every other json value. Parsed dicts have unique keys, so a
first-match lookup is faithful. -/
def pyGetItem (j : PyJson) (k : String) : Except String PyJson :=
  match j with
  | PyJson.jobj fields =>
    match fields.find? (fun f => f.1 == k) with
    | some f => Except.ok f.2
    | none => Except.error "KeyError"
  | _ => Except.error typeErrMsg

/-- Split a character list around the first occurrence of pat, returning
the part before it and the part after it. -/
def findSub (pat : List Char) : List Char → Option (List Char × List Char)
  | [] => if leadsWith pat [] then some ([], []) else none
  | c :: rest =>
    if leadsWith pat (c :: rest) then some ([], List.drop pat.length (c :: rest))
    else (findSub pat rest).map (fun pr => (c :: pr.1, pr.2))

def openToolTag : List Char := "<tool>".toList

def closeToolTag : List Char := "</tool>".toList

/-- Worker for findBlocks; the fuel only bounds the recursion and is chosen
large enough that it never runs out (each extracted block consumes at least
the two tags, so the number of blocks is below the text length). -/
def findBlocksAux (fuel : Nat) (s : List Char) : List (List Char) :=
  match fuel with
  | 0 => []
  | Nat.succ f =>
    match findSub openToolTag s with
    | none => []
    | some (_, afterOpen) =>
      match findSub closeToolTag afterOpen with
      | none => []
      | some (content, rest) => content :: findBlocksAux f rest

/-- The non-greedy left-to-right scan of re.findall with the pattern used
at clawservant.py line 246: each match opens at the next open tag and
closes at the first close tag after it; scanning resumes after the close
tag. -/
def findBlocks (s : List Char) : List (List Char) := findBlocksAux (s.length + 1) s

/-- The per-match body of ClawServant._extract_tool_calls, clawservant.py
lines 249 to 264, folded over the matched blocks. loads models the Python
stdlib json.loads on the stripped block, with none standing for a
JSONDecodeError, which is the only exception the source catches; the
membership checks run outside any handler, so a TypeError from them aborts
the whole extraction, discarding every previously parsed request. -/
def processBlocks (loads : List Char → Option PyJson) :
    List (List Char) → Except String (List PyJson)
  | [] => Except.ok []
  | b :: rest =>
    match loads (stripChars b) with
    | none => processBlocks loads rest
    | some j =>
      match pyContains j "tool" with
      | Except.error e => Except.error e
      | Except.ok false => processBlocks loads rest
      | Except.ok true =>
        match pyContains j "params" with
        | Except.error e => Except.error e
        | Except.ok false => processBlocks loads rest
        | Except.ok true => (processBlocks loads rest).map (fun l => j :: l)

/-- ClawServant._extract_tool_calls, clawservant.py lines 238 to 265. -/
def ClawServant._extract_tool_calls (loads : List Char → Option PyJson)
    (text : List Char) : Except String (List PyJson) :=
  processBlocks loads (findBlocks text)

/-- The reply text used to settle C3: a valid block, then a block whose
content is the valid JSON value 5 (not an object, so it has no tool key),
then another valid block. -/
def c3FailingText : String :=
  "<tool>\x7b\"tool\": \"a\", \"params\": \x7b\x7d\x7d</tool><tool>5</tool><tool>\x7b\"tool\": \"b\", \"params\": \x7b\x7d\x7d</tool>"

/-- A reply with two valid blocks and one block of invalid JSON. -/
def c3MixedText : String :=
  "<tool>\x7b\"tool\": \"a\", \"params\": \x7b\x7d\x7d</tool><tool>not json</tool><tool>\x7b\"tool\": \"b\", \"params\": \x7b\x7d\x7d</tool>"

def c3BlockA : String := "\x7b\"tool\": \"a\", \"params\": \x7b\x7d\x7d"

def c3BlockB : String := "\x7b\"tool\": \"b\", \"params\": \x7b\x7d\x7d"

def c3ObjA : PyJson := PyJson.jobj [("tool", PyJson.jstr "a"), ("params", PyJson.jobj [])]

def c3ObjB : PyJson := PyJson.jobj [("tool", PyJson.jstr "b"), ("params", PyJson.jobj [])]

/-- The behaviour of the Python stdlib json.loads on the only block
contents occurring in the C3 inputs: the two well-formed object blocks
parse to objects, the literal 5 parses to the integer 5, and the leftover
block is not valid JSON, so json.loads raises JSONDecodeError (modelled as
none). -/
def c3Loads : List Char → Option PyJson := fun l =>
  if l = c3BlockA.toList then some c3ObjA
  else if l = "5".toList then some (PyJson.jnum 5)
  else if l = c3BlockB.toList then some c3ObjB
  else none

/-- C3, settled against the code: the parser drops blocks with invalid
JSON as claimed (the mixed text yields exactly the two valid requests),
but a block whose JSON is valid and merely lacks the required keys is not
always dropped: on the block containing 5 the membership test tool in 5
raises an uncaught TypeError, so _extract_tool_calls aborts and returns no
requests at all instead of the two valid ones. -/
theorem extract_tool_calls_typeerror_on_nonobject_block :
    findBlocks c3FailingText.toList = [c3BlockA.toList, "5".toList, c3BlockB.toList] ∧
    c3Loads (stripChars "5".toList) = some (PyJson.jnum 5) ∧
    pyContains (PyJson.jnum 5) "tool" = Except.error typeErrMsg ∧
    ClawServant._extract_tool_calls c3Loads c3FailingText.toList = Except.error typeErrMsg ∧
    ClawServant._extract_tool_calls c3Loads c3MixedText.toList = Except.ok [c3ObjA, c3ObjB] := by
  refine ⟨?_, rfl, rfl, ?_, ?_⟩ <;> rfl

/- ## Orchestration loop think, clawservant.py lines 267 to 445 -/

/-- One executed tool call as recorded by the loop body (clawservant.py
lines 399 to 421): the tool name value, the params value, and the outcome
of the gateway call, where an error is caught by the per-call handler and
recorded as a failed outcome rather than raised. -/
structure ToolOutcome where
  tool : PyJson
  params : PyJson
  outcome : Except String PyJson

/-- Observable result of one think invocation: the returned text (or the
exception it raises), how many model calls were attempted, how many
tool-execution round-trips completed, and the executed tool calls in
order. -/
structure ThinkOut where
  text : Except String String
  modelCalls : Nat
  toolRounds : Nat
  toolTrace : List ToolOutcome

/-- The sentinel text returned by the except handler at clawservant.py
lines 439 to 441. -/
def errorSentinel (e : String) : String := "[ERROR] Failed to think: " ++ e

/-- Message of the Python UnboundLocalError raised by the return statement
at clawservant.py line 445 when the while body never ran and the local
thought was never assigned. -/
def unboundLocalMsg : String :=
  "UnboundLocalError: local variable thought referenced before assignment"

/-- The tool execution stage of one loop pass, clawservant.py lines 398 to
421: subscripting the parsed request for tool and params happens outside
the per-call try block, so a TypeError there is fatal to the pass (second
component), while a gateway failure is recorded and execution continues.
The gateway result only feeds the next prompt and the memory log, neither
of which influences the control flow of the embedding. -/
def execBatch (callTool : PyJson → PyJson → Except String PyJson) :
    List PyJson → List ToolOutcome → List ToolOutcome × Option String
  | [], acc => (acc.reverse, none)
  | tc :: rest, acc =>
    match pyGetItem tc "tool" with
    | Except.error e => (acc.reverse, some e)
    | Except.ok tname =>
      match pyGetItem tc "params" with
      | Except.error e => (acc.reverse, some e)
      | Except.ok tparams =>
        execBatch callTool rest
          ({ tool := tname, params := tparams, outcome := callTool tname tparams } :: acc)

/-- The while loop of think, clawservant.py lines 374 to 445. The fuel is
max_tool_iterations minus the current tool_iteration, so the loop guard
tool_iteration less than max_tool_iterations is exactly fuel being
positive. replies gives the outcome of the n-th provider-manager call of
this invocation (Except.error models the coordinator raising); loads
models json.loads inside the tool-call parser; callTool models the tool
gateway. last holds the Python local thought, unassigned before the first
pass. -/
def thinkLoop (loads : List Char → Option PyJson)
    (callTool : PyJson → PyJson → Except String PyJson)
    (replies : Nat → Except String String) (allowTools toolMgr : Bool) :
    Nat → Nat → Nat → List ToolOutcome → Option String → ThinkOut
  | 0, ci, rounds, trace, last =>
    match last with
    | some t => ⟨Except.ok t, ci, rounds, trace⟩
    | none => ⟨Except.error unboundLocalMsg, ci, rounds, trace⟩
  | Nat.succ fuel, ci, rounds, trace, _ =>
    match replies ci with
    | Except.error e => ⟨Except.ok (errorSentinel e), ci + 1, rounds, trace⟩
    | Except.ok thought =>
      if allowTools && toolMgr then
        match ClawServant._extract_tool_calls loads thought.toList with
        | Except.error e => ⟨Except.ok (errorSentinel e), ci + 1, rounds, trace⟩
        | Except.ok [] => ⟨Except.ok thought, ci + 1, rounds, trace⟩
        | Except.ok (tc :: tcs) =>
          match execBatch callTool (tc :: tcs) [] with
          | (outs, some e) => ⟨Except.ok (errorSentinel e), ci + 1, rounds, trace ++ outs⟩
          | (outs, none) =>
            thinkLoop loads callTool replies allowTools toolMgr fuel (ci + 1)
              (rounds + 1) (trace ++ outs) (some thought)
      else ⟨Except.ok thought, ci + 1, rounds, trace⟩

/-- ClawServant.think, clawservant.py lines 267 to 445. The system prompt
built at lines 273 to 372 only shapes the model replies, which the oracle
replies already ranges over; toolMgr is the truthiness of
self.tool_manager. -/
def ClawServant.think (loads : List Char → Option PyJson)
    (callTool : PyJson → PyJson → Except String PyJson)
    (replies : Nat → Except String String) (allowTools toolMgr : Bool)
    (maxToolIterations : Nat) : ThinkOut :=
  thinkLoop loads callTool replies allowTools toolMgr maxToolIterations 0 0 [] none

/-- C2, settled against the code: with max_tool_iterations set to 0 the
while body never runs, so the closing return statement reads the never
assigned local thought and think raises UnboundLocalError after zero model
calls and zero tool executions, instead of returning the first model reply
as the claim requires. The bound itself holds for positive budgets, but
the zero case contradicts the claim. -/
theorem think_zero_budget_raises (loads : List Char → Option PyJson)
    (callTool : PyJson → PyJson → Except String PyJson)
    (replies : Nat → Except String String) (allowTools toolMgr : Bool) :
    ClawServant.think loads callTool replies allowTools toolMgr 0 =
      ⟨Except.error unboundLocalMsg, 0, 0, []⟩ := rfl

/-- C6: when the provider fallback coordinator raises on the first model
call of think, think catches the exception and returns normally, embedding
the failure in the returned text behind the literal [ERROR] prefix. -/
theorem think_provider_failure_returns_sentinel (loads : List Char → Option PyJson)
    (callTool : PyJson → PyJson → Except String PyJson)
    (replies : Nat → Except String String) (allowTools toolMgr : Bool)
    (k : Nat) (e : String) (hk : 0 < k) (hrep : replies 0 = Except.error e) :
    (ClawServant.think loads callTool replies allowTools toolMgr k).text =
        Except.ok (errorSentinel e) ∧
      ∃ rest, (ClawServant.think loads callTool replies allowTools toolMgr k).text =
        Except.ok ("[ERROR]" ++ rest) := by
  cases k with
  | zero => omega
  | succ k =>
    have htext : (ClawServant.think loads callTool replies allowTools toolMgr
        (Nat.succ k)).text = Except.ok (errorSentinel e) := by
      simp [ClawServant.think, thinkLoop, hrep]
    refine ⟨htext, " Failed to think: " ++ e, ?_⟩
    rw [htext]
    have hsplit : "[ERROR]" ++ (" Failed to think: " ++ e) = errorSentinel e := by
      have hdata : ("[ERROR]" ++ (" Failed to think: " ++ e)).data =
          (errorSentinel e).data := by
        simp only [String.data_append, errorSentinel]
        rw [← List.append_assoc]
        rfl
      cases hstr : ("[ERROR]" ++ (" Failed to think: " ++ e)) with
      | mk l =>
        cases hstr2 : errorSentinel e with
        | mk l2 =>
          rw [hstr] at hdata
          rw [hstr2] at hdata
          simp at hdata
          rw [hdata]
    rw [hsplit]

/-- C10: with allow_tools False, think makes exactly one model call,
returns the first reply verbatim, executes no tools and records no tool
round-trips; the result does not depend on loads or on the tool gateway,
so tool-call extraction is never invoked, whatever blocks the reply
contains. -/
theorem think_no_tools_single_call (loads : List Char → Option PyJson)
    (callTool : PyJson → PyJson → Except String PyJson)
    (replies : Nat → Except String String) (toolMgr : Bool) (k : Nat) (t : String)
    (hrep : replies 0 = Except.ok t) (hk : 0 < k) :
    ClawServant.think loads callTool replies false toolMgr k =
      ⟨Except.ok t, 1, 0, []⟩ := by
  cases k with
  | zero => omega
  | succ k => simp [ClawServant.think, thinkLoop, hrep]

/-- Trivial stdlib and gateway instantiations for the think witnesses. -/
def wLoadsNone : List Char → Option PyJson := fun _ => none

def wCallToolFail : PyJson → PyJson → Except String PyJson :=
  fun _ _ => Except.error "no tools installed"

/-- Oracle whose every call raises the provider-exhaustion RuntimeError. -/
def wRepliesExhausted : Nat → Except String String := fun _ => Except.error noProviderMsg

/-- Oracle whose every call succeeds with a reply that contains a
well-formed tool block. -/
def wRepliesToolBlock : Nat → Except String String :=
  fun _ => Except.ok "Reply with a <tool>block</tool> inside"

theorem think_provider_failure_returns_sentinel_witness :
    (ClawServant.think wLoadsNone wCallToolFail wRepliesExhausted true true 10).text =
        Except.ok (errorSentinel noProviderMsg) ∧
      ∃ rest, (ClawServant.think wLoadsNone wCallToolFail wRepliesExhausted true true 10).text =
        Except.ok ("[ERROR]" ++ rest) :=
  think_provider_failure_returns_sentinel wLoadsNone wCallToolFail wRepliesExhausted
    true true 10 noProviderMsg (by decide) rfl

theorem think_no_tools_single_call_witness :
    ClawServant.think wLoadsNone wCallToolFail wRepliesToolBlock false true 10 =
      ⟨Except.ok "Reply with a <tool>block</tool> inside", 1, 0, []⟩ :=
  think_no_tools_single_call wLoadsNone wCallToolFail wRepliesToolBlock true 10
    "Reply with a <tool>block</tool> inside" rfl (by decide)

/- ## Task metadata header and iteration controller, clawservant.py 478-563 -/

/-- Indices of the newline characters in a list, ascending, offset by i. -/
def nlPositionsAsc : List Char → Nat → List Nat
  | [], _ => []
  | c :: rest, i =>
    if c = '\n' then i :: nlPositionsAsc rest (i + 1) else nlPositionsAsc rest (i + 1)

/-- First success of f over a list of candidates, in order. -/
def firstSome (f : List Char → Option (List Char × List Char)) :
    List (List Char) → Option (List Char × List Char)
  | [] => none
  | a :: rest =>
    match f a with
    | some b => some b
    | none => firstSome f rest

/-- The regex fragment backslash-s-star newline when its continuation
always succeeds: the greedy whitespace run ends at the last newline of the
maximal whitespace prefix, or the fragment fails when that prefix holds no
newline. -/
def closeAfter (s : List Char) : Option (List Char) :=
  match (nlPositionsAsc (s.takeWhile isPySpace) 0).reverse with
  | [] => none
  | k :: _ => some (s.drop (k + 1))

/-- The candidate remainders for the opening dashes-whitespace-newline
fragment, in the backtracking order of the regex engine: the greedy
whitespace run is cut at each newline of the maximal whitespace prefix,
longest cut first. -/
def openCandidates (s : List Char) : List (List Char) :=
  ((nlPositionsAsc (s.takeWhile isPySpace) 0).reverse).map (fun k => s.drop (k + 1))

/-- The non-greedy scan for the closing delimiter: the shortest metadata
group such that the text continues with newline, three dashes, then a
whitespace run containing a newline; everything after that run is the task
body. -/
def scanFMEnd : List Char → Option (List Char × List Char)
  | [] => none
  | c :: rest =>
    if leadsWith "\n---".toList (c :: rest) then
      match closeAfter (List.drop 4 (c :: rest)) with
      | some body => some ([], body)
      | none => (scanFMEnd rest).map (fun gb => (c :: gb.1, gb.2))
    else (scanFMEnd rest).map (fun gb => (c :: gb.1, gb.2))

/-- The anchored frontmatter regex of clawservant.py line 481 under
re.DOTALL: three leading dashes, whitespace through a newline, the
non-greedy metadata group, a newline, three dashes, whitespace through a
newline, then the body, with the backtracking order of the Python engine
reproduced by the candidate lists. Returns the two captured groups. -/
def frontmatterMatch (s : List Char) : Option (List Char × List Char) :=
  if leadsWith "---".toList s then firstSome scanFMEnd (openCandidates (s.drop 3))
  else none

/-- Key-value parsing of the metadata group, clawservant.py lines 486 to
490: each line containing a colon is split at its first colon and both
sides are stripped. Insertion order is kept; a repeated key overwrites, so
lookups read the last occurrence. -/
def parseMetaLines (lines : List (List Char)) : List (String × String) :=
  lines.filterMap (fun line =>
    if line.contains ':' then
      some (String.mk (stripChars (line.takeWhile (fun c => !(c == ':')))),
            String.mk (stripChars ((line.dropWhile (fun c => !(c == ':'))).drop 1)))
    else none)

/-- Python str.split on newline: worker returning the current segment and
the remaining segments. -/
def splitNlAux : List Char → List Char × List (List Char)
  | [] => ([], [])
  | c :: rest =>
    let r := splitNlAux rest
    if c = '\n' then ([], r.1 :: r.2) else (c :: r.1, r.2)

/-- Python str.split on newline. -/
def splitNl (s : List Char) : List (List Char) := (splitNlAux s).1 :: (splitNlAux s).2

/-- Python dict get on the ordered key-value list: the last binding of the
key wins. -/
def getMeta (md : List (String × String)) (k : String) : Option String :=
  (md.reverse.find? (fun p => p.1 == k)).map (fun p => p.2)

/-- ClawServant.parse_task_frontmatter, clawservant.py lines 478 to 494:
the parsed metadata mapping and the task content, or the whole text with
an empty mapping when the frontmatter regex does not match. -/
def ClawServant.parse_task_frontmatter (task_text : List Char) :
    List (String × String) × List Char :=
  match frontmatterMatch task_text with
  | some gb => (parseMetaLines (splitNl gb.1), gb.2)
  | none => ([], task_text)

/-- Python int on a decimal string: surrounding whitespace is ignored, one
optional sign, then at least one digit (digit grouping underscores are not
needed by any input of this development). none models ValueError. -/
def digitsVal : List Char → Option Nat
  | [] => none
  | [c] => if c.isDigit then some (c.toNat - 48) else none
  | c :: rest =>
    if c.isDigit then
      (digitsVal rest).map (fun n => (c.toNat - 48) * 10 ^ rest.length + n)
    else none

def pyInt (s : List Char) : Option Int :=
  match stripChars s with
  | '+' :: ds => (digitsVal ds).map (fun n => (n : Int))
  | '-' :: ds => (digitsVal ds).map (fun n => -(n : Int))
  | ds => (digitsVal ds).map (fun n => (n : Int))

/-- The computation int(metadata.get("iteration", 1)) at clawservant.py
line 499, with the ValueError of a malformed value propagated. -/
def iterationStart (md : List (String × String)) : Except String Int :=
  match getMeta md "iteration" with
  | none => Except.ok 1
  | some v =>
    match pyInt v.toList with
    | none => Except.error "ValueError: invalid literal for int with base 10"
    | some n => Except.ok n

/-- The result artifact of process_task_with_loop; the timestamp field is
wall-clock output and carries no information for the claims, so it is not
modelled. -/
structure TaskResult where
  task_id : String
  task : String
  result : String
  iterations : Int
  status : String
deriving DecidableEq, Repr

/-- The while loop of process_task_with_loop, clawservant.py lines 509 to
551, returning the result text, iterations and status fields of the final
artifact. tr gives the text returned by the n-th think call of this run;
lastTxt is the Python local result_text, initialised to the empty string.
The fuel counts the remaining loop guard tests; the caller passes the
exact value (max plus one minus iteration).toNat, so fuel running out
coincides with the guard iteration less or equal max failing, and both
exits build the max_iterations_reached artifact with the iteration counter
rolled back by one. -/
def taskLoopAux (tr : Nat → String) (maxI : Int) :
    Nat → Nat → String → Int → String × Int × String
  | 0, _, lastTxt, iteration => (lastTxt, iteration - 1, "max_iterations_reached")
  | Nat.succ f, ci, lastTxt, iteration =>
    if iteration ≤ maxI then
      if containsSub "TASK_DONE".toList (tr ci).toList then (tr ci, iteration, "complete")
      else taskLoopAux tr maxI f (ci + 1) (tr ci) (iteration + 1)
    else (lastTxt, iteration - 1, "max_iterations_reached")

/-- ClawServant.process_task_with_loop, clawservant.py lines 496 to 563.
genId injects the generated identifier task_ followed by the current epoch
second, used when the metadata supplies none; the memory log writes, the
result file write and the state update do not affect the returned
artifact. -/
def ClawServant.process_task_with_loop (tr : Nat → String) (genId : String)
    (task_text : String) (max_iterations : Int) : Except String TaskResult :=
  let pc := ClawServant.parse_task_frontmatter task_text.toList
  match iterationStart pc.1 with
  | Except.error e => Except.error e
  | Except.ok start =>
    let tid := (getMeta pc.1 "task_id").getD genId
    let r := taskLoopAux tr max_iterations (max_iterations + 1 - start).toNat 0 "" start
    Except.ok ⟨tid, String.mk pc.2, r.1, r.2.1, r.2.2⟩

/-- The task loop stops at the first think call whose text holds the
completion marker, provided the marker arrives within the iteration
budget. -/
theorem taskLoopAux_complete (tr : Nat → String) (maxI : Int) :
    ∀ (n : Nat) (ci : Nat) (lastTxt : String) (iteration : Int) (fuel : Nat),
      fuel = (maxI + 1 - iteration).toNat →
      iteration + (n : Int) ≤ maxI →
      containsSub "TASK_DONE".toList (tr (ci + n)).toList = true →
      (∀ m : Nat, m < n → containsSub "TASK_DONE".toList (tr (ci + m)).toList = false) →
      taskLoopAux tr maxI fuel ci lastTxt iteration =
        (tr (ci + n), iteration + (n : Int), "complete") := by
  intro n
  induction n with
  | zero =>
    intro ci lastTxt iteration fuel hfuel hle hmark _
    have hle2 : iteration ≤ maxI := by omega
    obtain ⟨f, rfl⟩ : ∃ f, fuel = f + 1 := ⟨fuel - 1, by omega⟩
    simp only [taskLoopAux, if_pos hle2]
    rw [show ci + 0 = ci from rfl] at hmark
    rw [if_pos hmark]
    simp
  | succ n ih =>
    intro ci lastTxt iteration fuel hfuel hle hmark hbefore
    have hle2 : iteration ≤ maxI := by omega
    obtain ⟨f, rfl⟩ : ∃ f, fuel = f + 1 := ⟨fuel - 1, by omega⟩
    simp only [taskLoopAux, if_pos hle2]
    have h0 : containsSub "TASK_DONE".toList (tr ci).toList = false := by
      have := hbefore 0 (Nat.succ_pos n)
      simpa using this
    rw [h0]
    simp only [Bool.false_eq_true, if_false]
    have hrec := ih (ci + 1) (tr ci) (iteration + 1) f
      (by omega) (by omega)
      (by rw [show ci + 1 + n = ci + (n + 1) from by omega]; exact hmark)
      (fun m hm => by
        rw [show ci + 1 + m = ci + (m + 1) from by omega]
        exact hbefore (m + 1) (by omega))
    rw [hrec]
    have e1 : ci + 1 + n = ci + (n + 1) := by omega
    have e2 : iteration + 1 + (n : Int) = iteration + ((n : Nat) + 1 : Nat) := by
      push_cast; ring
    rw [e1, e2]

/-- When every think call inside the budget misses the marker, the task
loop runs the budget down and ends with the reached status, the final
iteration counter rolled back to maxI, and the text of the last call. -/
theorem taskLoopAux_exhausted (tr : Nat → String) (maxI : Int) :
    ∀ (fuel : Nat) (ci : Nat) (lastTxt : String) (iteration : Int),
      fuel = (maxI + 1 - iteration).toNat →
      0 < fuel →
      (∀ m : Nat, m < fuel → containsSub "TASK_DONE".toList (tr (ci + m)).toList = false) →
      taskLoopAux tr maxI fuel ci lastTxt iteration =
        (tr (ci + (fuel - 1)), maxI, "max_iterations_reached") := by
  intro fuel
  induction fuel with
  | zero => intro ci lastTxt iteration _ h2 _; omega
  | succ f ih =>
    intro ci lastTxt iteration hfuel _ hmiss
    have hle2 : iteration ≤ maxI := by omega
    simp only [taskLoopAux, if_pos hle2]
    have h0 : containsSub "TASK_DONE".toList (tr ci).toList = false := by
      have := hmiss 0 (Nat.succ_pos f)
      simpa using this
    rw [h0]
    simp only [Bool.false_eq_true, if_false]
    cases f with
    | zero =>
      have hiter : iteration = maxI := by omega
      simp only [taskLoopAux]
      rw [hiter]
      simp
    | succ g =>
      have hrec := ih (ci + 1) (tr ci) (iteration + 1) (by omega) (by omega)
        (fun m hm => by
          rw [show ci + 1 + m = ci + (m + 1) from by omega]
          exact hmiss (m + 1) (by omega))
      rw [hrec]
      have e1 : ci + 1 + (g + 1 - 1) = ci + (g + 1 + 1 - 1) := by omega
      rw [e1]

/-- C4: the task iteration controller stops with status complete at the
first think call whose returned text contains the literal marker
TASK_DONE, recording that iteration number; and the substring test does
not fire on the truncated variant TASK_DON nor on the lowercase variant
task_done. -/
theorem processTask_halts_at_first_marker (tr : Nat → String)
    (genId task_text : String) (maxI start : Int) (n : Nat)
    (hstart : iterationStart (ClawServant.parse_task_frontmatter task_text.toList).1 =
      Except.ok start)
    (hbudget : start + (n : Int) ≤ maxI)
    (hmark : containsSub "TASK_DONE".toList (tr n).toList = true)
    (hbefore : ∀ m : Nat, m < n → containsSub "TASK_DONE".toList (tr m).toList = false) :
    (∃ res : TaskResult,
        ClawServant.process_task_with_loop tr genId task_text maxI = Except.ok res ∧
          res.status = "complete" ∧ res.iterations = start + (n : Int) ∧
          res.result = tr n) ∧
      containsSub "TASK_DONE".toList "TASK_DON".toList = false ∧
      containsSub "TASK_DONE".toList "task_done".toList = false := by
  refine ⟨?_, by decide, by decide⟩
  have hloop := taskLoopAux_complete tr maxI n 0 "" start
    ((maxI + 1 - start).toNat) rfl hbudget (by simpa using hmark)
    (fun m hm => by simpa using hbefore m hm)
  refine ⟨⟨(getMeta (ClawServant.parse_task_frontmatter task_text.toList).1 "task_id").getD genId,
    String.mk (ClawServant.parse_task_frontmatter task_text.toList).2,
    tr n, start + (n : Int), "complete"⟩, ?_, rfl, rfl, rfl⟩
  simp only [ClawServant.process_task_with_loop, hstart, hloop]
  simp

/-- C7: a task text without a metadata header starts at iteration 1; with
max_iterations three and no think call ever containing the marker, the
controller ends with status max_iterations_reached, iterations three, and
the text of the third call as the result. -/
theorem processTask_budget_exhausted (tr : Nat → String) (genId task_text : String)
    (hplain : ClawServant.parse_task_frontmatter task_text.toList = ([], task_text.toList))
    (hmiss : ∀ m : Nat, m < 3 → containsSub "TASK_DONE".toList (tr m).toList = false) :
    ∃ res : TaskResult,
      ClawServant.process_task_with_loop tr genId task_text 3 = Except.ok res ∧
        res.status = "max_iterations_reached" ∧ res.iterations = 3 ∧
        res.result = tr 2 := by
  have hstart : iterationStart (ClawServant.parse_task_frontmatter task_text.toList).1 =
      Except.ok 1 := by
    rw [hplain]; rfl
  have hloop := taskLoopAux_exhausted tr 3 (((3 : Int) + 1 - 1).toNat) 0 "" 1 rfl (by decide)
    (fun m hm => by simpa using hmiss m (by omega))
  refine ⟨⟨(getMeta (ClawServant.parse_task_frontmatter task_text.toList).1 "task_id").getD genId,
    String.mk (ClawServant.parse_task_frontmatter task_text.toList).2,
    tr 2, 3, "max_iterations_reached"⟩, ?_, rfl, rfl, rfl⟩
  simp only [ClawServant.process_task_with_loop, hstart, hloop]
  norm_num
  rfl

/-- Oracle for the C4 witness: the first think call returns text carrying
only the lowercase variant of the marker, the second carries the literal
marker. -/
def trMarkerAtSecond : Nat → String := fun n =>
  if n = 0 then "still working, see task_done and TASK_DON" else "All steps finished. TASK_DONE"

theorem processTask_halts_at_first_marker_witness :
    (∃ res : TaskResult,
        ClawServant.process_task_with_loop trMarkerAtSecond "task_1700000000"
            "Summarize X" 5 = Except.ok res ∧
          res.status = "complete" ∧ res.iterations = 1 + ((1 : Nat) : Int) ∧
          res.result = trMarkerAtSecond 1) ∧
      containsSub "TASK_DONE".toList "TASK_DON".toList = false ∧
      containsSub "TASK_DONE".toList "task_done".toList = false :=
  processTask_halts_at_first_marker trMarkerAtSecond "task_1700000000" "Summarize X"
    5 1 1 rfl (by decide) (by decide) (by decide)

/-- Oracle for the C7 witness: no think call ever emits the marker. -/
def trNeverDone : Nat → String := fun n => "iteration " ++ toString n ++ " no marker yet"

theorem processTask_budget_exhausted_witness :
    ∃ res : TaskResult,
      ClawServant.process_task_with_loop trNeverDone "task_1700000000" "Summarize X" 3 =
          Except.ok res ∧
        res.status = "max_iterations_reached" ∧ res.iterations = 3 ∧
        res.result = trNeverDone 2 :=
  processTask_budget_exhausted trNeverDone "task_1700000000" "Summarize X" rfl (by decide)

/- ## Memory log, clawservant.py lines 100 to 133 -/

/-- One memory record as built by Memory.add, clawservant.py lines 118 to
123; the timestamp is the injected clock reading. -/
structure MemoryEntry where
  timestamp : String
  kind : String
  content : String
  importance : Int
deriving DecidableEq, Repr

/-- The in-memory list self.memories together with the content of the
memory.jsonl file, modelled as one character stream. -/
structure MemoryState where
  memories : List MemoryEntry
  file : List Char
deriving DecidableEq, Repr

/-- Memory.add, clawservant.py lines 116 to 128: append the record to the
in-memory list and append its json.dumps serialisation plus one newline to
the file. dumps models the stdlib json.dumps of the four-field record;
now models datetime.now(timezone.utc).isoformat(). -/
def Memory.add (dumps : MemoryEntry → List Char) (st : MemoryState)
    (now kind content : String) (importance : Int) : MemoryState :=
  let memory : MemoryEntry := ⟨now, kind, content, importance⟩
  ⟨st.memories ++ [memory], st.file ++ dumps memory ++ ['\n']⟩

/-- The line loop of Memory.load, clawservant.py lines 110 to 113: blank
lines are skipped, every other line goes through json.loads and is
appended; loads models json.loads on one line of the file (a line holding
a record of the memory shape yields that record, none models a raised
JSONDecodeError, which Memory.load does not catch, so it aborts the
load). -/
def linesLoad (loads : List Char → Option MemoryEntry) :
    List (List Char) → Except String (List MemoryEntry)
  | [] => Except.ok []
  | l :: rest =>
    if (stripChars l).isEmpty then linesLoad loads rest
    else
      match loads l with
      | none => Except.error "json.decoder.JSONDecodeError"
      | some m => (linesLoad loads rest).map (fun ms => m :: ms)

/-- Memory.load, clawservant.py lines 107 to 114, reading the given file
content; iterating the file handle visits the newline-separated segments
of the stream. -/
def Memory.load (loads : List Char → Option MemoryEntry) (file : List Char) :
    Except String (List MemoryEntry) :=
  linesLoad loads (splitNl file)

/-- Fold Memory.add over a list of (timestamp, kind, content, importance)
quadruples, as a sequence of add calls on one store. -/
def addAll (dumps : MemoryEntry → List Char) (st : MemoryState) :
    List (String × String × String × Int) → MemoryState
  | [] => st
  | t :: rest => addAll dumps (Memory.add dumps st t.1 t.2.1 t.2.2.1 t.2.2.2) rest

/-- The record built by Memory.add from one quadruple. -/
def entryOf (t : String × String × String × Int) : MemoryEntry :=
  ⟨t.1, t.2.1, t.2.2.1, t.2.2.2⟩

/-- The file content produced by dumping a list of records, one line per
record. -/
def fileOf (dumps : MemoryEntry → List Char) : List MemoryEntry → List Char
  | [] => []
  | e :: rest => dumps e ++ '\n' :: fileOf dumps rest

theorem splitNlAux_append_nl (r : List Char) :
    ∀ x : List Char, '\n' ∉ x →
      splitNlAux (x ++ '\n' :: r) = (x, (splitNlAux r).1 :: (splitNlAux r).2) := by
  intro x
  induction x with
  | nil => intro _; simp [splitNlAux]
  | cons c cs ih =>
    intro hmem
    have hc : ¬(c = '\n') := fun h => hmem (by rw [h]; exact List.mem_cons_self _ _)
    have hcs : '\n' ∉ cs := fun h => hmem (List.mem_cons_of_mem c h)
    simp only [List.cons_append, splitNlAux, List.append_eq, ih hcs, if_neg hc]

theorem splitNl_append_nl (x r : List Char) (hx : '\n' ∉ x) :
    splitNl (x ++ '\n' :: r) = x :: splitNl r := by
  simp [splitNl, splitNlAux_append_nl r x hx]

/-- Loading the dumped file of a record list recovers the records, given
that each dumped line decodes back, holds no newline, and is not blank. -/
theorem load_fileOf (dumps : MemoryEntry → List Char)
    (loads : List Char → Option MemoryEntry) :
    ∀ es : List MemoryEntry,
      (∀ e ∈ es, loads (dumps e) = some e) →
      (∀ e ∈ es, '\n' ∉ dumps e) →
      (∀ e ∈ es, (stripChars (dumps e)).isEmpty = false) →
      Memory.load loads (fileOf dumps es) = Except.ok es := by
  intro es
  induction es with
  | nil => intro _ _ _; rfl
  | cons e rest ih =>
    intro h1 h2 h3
    have he1 : loads (dumps e) = some e := h1 e (List.mem_cons_self _ _)
    have he2 : '\n' ∉ dumps e := h2 e (List.mem_cons_self _ _)
    have he3 : (stripChars (dumps e)).isEmpty = false := h3 e (List.mem_cons_self _ _)
    have hr1 : ∀ q ∈ rest, loads (dumps q) = some q :=
      fun q hq => h1 q (List.mem_cons_of_mem e hq)
    have hr2 : ∀ q ∈ rest, '\n' ∉ dumps q :=
      fun q hq => h2 q (List.mem_cons_of_mem e hq)
    have hr3 : ∀ q ∈ rest, (stripChars (dumps q)).isEmpty = false :=
      fun q hq => h3 q (List.mem_cons_of_mem e hq)
    have hsplit := splitNl_append_nl (dumps e) (fileOf dumps rest) he2
    have ihr := ih hr1 hr2 hr3
    simp only [Memory.load] at ihr
    simp only [Memory.load, fileOf]
    rw [hsplit]
    rw [show linesLoad loads (dumps e :: splitNl (fileOf dumps rest)) =
        (if (stripChars (dumps e)).isEmpty then linesLoad loads (splitNl (fileOf dumps rest))
         else
           match loads (dumps e) with
           | none => Except.error "json.decoder.JSONDecodeError"
           | some m => (linesLoad loads (splitNl (fileOf dumps rest))).map (fun ms => m :: ms))
      from rfl]
    rw [he3, he1, ihr]
    simp [Except.map]

/-- The store reached by a run of adds from a given start. -/
theorem addAll_spec (dumps : MemoryEntry → List Char) :
    ∀ (ts : List (String × String × String × Int)) (ms : List MemoryEntry) (f : List Char),
      addAll dumps ⟨ms, f⟩ ts = ⟨ms ++ ts.map entryOf, f ++ fileOf dumps (ts.map entryOf)⟩ := by
  intro ts
  induction ts with
  | nil => intro ms f; simp [addAll, fileOf]
  | cons t rest ih =>
    intro ms f
    simp only [addAll, Memory.add, List.map_cons, fileOf, entryOf]
    rw [ih]
    simp

/-- C8: appending N entries to a fresh memory store through Memory.add and
reloading the resulting file in a fresh Memory instance yields the same N
records, in append order, with identical timestamp, kind, content and
importance fields. The hypotheses record the json codec contract for the
dumped lines: each line decodes back to its record, holds no newline, and
is not blank. -/
theorem memory_roundtrip (dumps : MemoryEntry → List Char)
    (loads : List Char → Option MemoryEntry)
    (ts : List (String × String × String × Int))
    (h1 : ∀ t ∈ ts, loads (dumps (entryOf t)) = some (entryOf t))
    (h2 : ∀ t ∈ ts, '\n' ∉ dumps (entryOf t))
    (h3 : ∀ t ∈ ts, (stripChars (dumps (entryOf t))).isEmpty = false) :
    (addAll dumps ⟨[], []⟩ ts).memories = ts.map entryOf ∧
      Memory.load loads (addAll dumps ⟨[], []⟩ ts).file =
        Except.ok ((addAll dumps ⟨[], []⟩ ts).memories) := by
  have hspec := addAll_spec dumps ts [] []
  rw [hspec]
  refine ⟨by simp, ?_⟩
  simp only [List.nil_append]
  exact load_fileOf dumps loads (ts.map entryOf)
    (fun e he => by obtain ⟨t, ht, rfl⟩ := List.mem_map.mp he; exact h1 t ht)
    (fun e he => by obtain ⟨t, ht, rfl⟩ := List.mem_map.mp he; exact h2 t ht)
    (fun e he => by obtain ⟨t, ht, rfl⟩ := List.mem_map.mp he; exact h3 t ht)

/-- C9: Memory.add leaves every existing record in place and in order, as
a prefix of both the list and the file: it appends exactly one record to
the in-memory list and exactly one line (one newline character) to the
file; nothing is rewritten or deleted. -/
theorem memory_add_append_only (dumps : MemoryEntry → List Char) (st : MemoryState)
    (now kind content : String) (importance : Int)
    (hnl : '\n' ∉ dumps ⟨now, kind, content, importance⟩) :
    (Memory.add dumps st now kind content importance).memories =
        st.memories ++ [⟨now, kind, content, importance⟩] ∧
      (Memory.add dumps st now kind content importance).file =
        st.file ++ dumps ⟨now, kind, content, importance⟩ ++ ['\n'] ∧
      (Memory.add dumps st now kind content importance).file.count '\n' =
        st.file.count '\n' + 1 := by
  refine ⟨rfl, rfl, ?_⟩
  simp only [Memory.add, List.count_append]
  have hzero : (dumps ⟨now, kind, content, importance⟩).count '\n' = 0 :=
    List.count_eq_zero.mpr hnl
  rw [hzero]
  simp

/-- Concrete records and a concrete json codec table for the C8 witness. -/
def wEntryOne : MemoryEntry := ⟨"2024-01-01T00:00:00+00:00", "thought", "alpha", 1⟩

def wEntryTwo : MemoryEntry := ⟨"2024-01-01T00:00:05+00:00", "task", "beta", 3⟩

def wDumpsMem : MemoryEntry → List Char := fun e =>
  if e = wEntryOne then "line one".toList
  else if e = wEntryTwo then "line two".toList
  else "other".toList

def wLoadsMem : List Char → Option MemoryEntry := fun l =>
  if l = "line one".toList then some wEntryOne
  else if l = "line two".toList then some wEntryTwo
  else none

def wQuads : List (String × String × String × Int) :=
  [("2024-01-01T00:00:00+00:00", "thought", "alpha", 1),
   ("2024-01-01T00:00:05+00:00", "task", "beta", 3)]

theorem memory_roundtrip_witness :
    (addAll wDumpsMem ⟨[], []⟩ wQuads).memories = wQuads.map entryOf ∧
      Memory.load wLoadsMem (addAll wDumpsMem ⟨[], []⟩ wQuads).file =
        Except.ok ((addAll wDumpsMem ⟨[], []⟩ wQuads).memories) :=
  memory_roundtrip wDumpsMem wLoadsMem wQuads (by decide) (by decide) (by decide)

/-- Concrete serialiser and starting store for the C9 witness. -/
def wDumpsNine : MemoryEntry → List Char := fun _ => "serialised record".toList

def wStateNine : MemoryState := ⟨[], "earlier line".toList ++ ['\n']⟩

theorem memory_add_append_only_witness :
    (Memory.add wDumpsNine wStateNine "2024-01-01T00:00:00+00:00" "observation"
          "gamma" 2).memories =
        wStateNine.memories ++ [⟨"2024-01-01T00:00:00+00:00", "observation", "gamma", 2⟩] ∧
      (Memory.add wDumpsNine wStateNine "2024-01-01T00:00:00+00:00" "observation"
          "gamma" 2).file =
        wStateNine.file ++
          wDumpsNine ⟨"2024-01-01T00:00:00+00:00", "observation", "gamma", 2⟩ ++ ['\n'] ∧
      (Memory.add wDumpsNine wStateNine "2024-01-01T00:00:00+00:00" "observation"
          "gamma" 2).file.count '\n' =
        wStateNine.file.count '\n' + 1 :=
  memory_add_append_only wDumpsNine wStateNine "2024-01-01T00:00:00+00:00" "observation"
    "gamma" 2 (by decide)
